import Mathlib

/-!
# broadcast/logger.go

A shallow embedding of `src/broadcast/logger.go`: the adapter `logrusLogger`
that presents a logrus logger through the gommon logger interface, and the
request logging middleware `logrusMiddlewareHandler` with its helpers.

Go values are modelled as follows.

* An `error` is `Option Err`, with `none` for `nil`.
* A `[]byte` is `List Byte`; header values and other short texts are `String`.
* A panic is the `Except.error` branch of a result, carrying the panic message.
* Mutable objects reached through pointers (the logrus loggers, the request,
  the response, the capture buffer) live in an explicit state that each
  operation takes and returns; requests and responses are kept by address, so
  that a pointer bound before a call still names the same object after it.
-/

namespace Broadcast

/-! ## Values of the imported packages -/

/-- A non-nil Go `error`, identified by its message. -/
abbrev Err := String

/-- One octet of a `[]byte`. -/
abbrev Byte := Fin 256

/-- The type `log.Lvl` of `github.com/labstack/gommon/log`, a `uint8`. -/
abbrev Lvl := Nat

/-- `log.DEBUG` (`iota + 1`). -/
def DEBUG : Lvl := (1 : Nat)
/-- `log.INFO`. -/
def INFO : Lvl := (2 : Nat)
/-- `log.WARN`. -/
def WARN : Lvl := (3 : Nat)
/-- `log.ERROR`. -/
def ERROR : Lvl := (4 : Nat)
/-- `log.OFF`. -/
def OFF : Lvl := (5 : Nat)

/-- The type `logrus.Level` of `github.com/sirupsen/logrus`, a `uint32`. -/
abbrev Level := Nat

/-- `logrus.PanicLevel` (`iota`), which is also the zero value of `logrus.Level`. -/
def PanicLevel : Level := (0 : Nat)
/-- `logrus.FatalLevel`. -/
def FatalLevel : Level := (1 : Nat)
/-- `logrus.ErrorLevel`. -/
def ErrorLevel : Level := (2 : Nat)
/-- `logrus.WarnLevel`. -/
def WarnLevel : Level := (3 : Nat)
/-- `logrus.InfoLevel`. -/
def InfoLevel : Level := (4 : Nat)
/-- `logrus.DebugLevel`. -/
def DebugLevel : Level := (5 : Nat)
/-- `logrus.TraceLevel`. -/
def TraceLevel : Level := (6 : Nat)

/-! ## The logrus loggers of the process -/

/-- The part of a `logrus.Logger` that `logger.go` reads and writes. -/
structure Logger where
  Level : Level
  deriving DecidableEq, Repr

/-- A non-nil `*logrus.Logger`: either the package-level standard logger, the
one the functions `logrus.SetLevel`, `logrus.SetOutput` and `logrus.WithFields`
act on, or a logger created separately (`logrus.New()`), by its index. -/
inductive LoggerPtr where
  | std
  | other (i : Nat)
  deriving DecidableEq, Repr

/-- The logrus loggers alive in the process. -/
structure Logrus where
  std : Logger
  others : List Logger
  deriving DecidableEq, Repr

/-- Dereferences a logger pointer. -/
def Logrus.deref (s : Logrus) : LoggerPtr → Logger
  | .std => s.std
  | .other i => s.others.getD i { Level := InfoLevel }

/-- The package function `logrus.SetLevel`: sets the standard logger's level. -/
def logrusSetLevel (level : Level) (s : Logrus) : Logrus :=
  { s with std := { s.std with Level := level } }

/-- The adapter `type logrusLogger struct { *logrus.Logger }`. -/
structure logrusLogger where
  Logger : LoggerPtr
  deriving DecidableEq, Repr

/-- The promoted method `l.Panic(msg)` of the embedded `*logrus.Logger`: logs
the message at panic level and panics; it never returns to its caller. -/
def logrusLogger.Panic {α : Type} (_l : logrusLogger) (msg : String) : Except String α :=
  .error msg

/-- `func (l logrusLogger) Level() log.Lvl`: a switch on the level of the
wrapped logger, `l.Logger.Level`. The trailing `return log.OFF` of the source is
not reached, since `l.Panic` does not return. -/
def logrusLogger.Level (l : logrusLogger) (s : Logrus) : Except String Lvl :=
  let level := (s.deref l.Logger).Level
  if level = DebugLevel then .ok DEBUG
  else if level = WarnLevel then .ok WARN
  else if level = ErrorLevel then .ok ERROR
  else if level = InfoLevel then .ok INFO
  else l.Panic "Invalid level"

/-- `func (l logrusLogger) SetLevel(lvl log.Lvl)`: a switch on `lvl` that calls
the package function `logrus.SetLevel`. The result is the state of the loggers
afterwards and whether the call returned (`.ok ()`) or panicked. -/
def logrusLogger.SetLevel (l : logrusLogger) (lvl : Lvl) (s : Logrus) :
    Logrus × Except String Unit :=
  if lvl = DEBUG then (logrusSetLevel DebugLevel s, .ok ())
  else if lvl = WARN then (logrusSetLevel WarnLevel s, .ok ())
  else if lvl = ERROR then (logrusSetLevel ErrorLevel s, .ok ())
  else if lvl = INFO then (logrusSetLevel InfoLevel s, .ok ())
  else (s, l.Panic "Invalid level")

/-! ## Headers -/

/-- An `http.Header`: canonical header names with their values. -/
abbrev Header := List (String × List String)

/-- `http.Header.Get`: the first value stored under the key, or `""` when there is
none. Keys are kept in canonical form, so the lookup is by equality. -/
def Header.Get (h : Header) (key : String) : String :=
  match h.lookup key with
  | some (v :: _) => v
  | _ => ""

/-- `echo.HeaderContentLength`. -/
def HeaderContentLength : String := "Content-Length"

/-- `echo.HeaderXRequestID` (`"X-Request-ID"`) in the canonical form under which
`Header.Get` looks it up. -/
def HeaderXRequestID : String := "X-Request-Id"

/-! ## Request and response -/

/-- An `io.ReadCloser` carrying a request body: the data that successive `Read`
calls will still deliver, and the condition that ends the stream (`none` for
`io.EOF`, `some e` for a read error). -/
structure ReadCloser where
  chunks : List (List Byte)
  term : Option Err

/-- `ioutil.ReadAll`: reads until `io.EOF` or an error and returns the data read;
reaching `io.EOF` is reported as a nil error. The stream is left drained. -/
def ReadAll (r : ReadCloser) : ReadCloser × List Byte × Option Err :=
  ({ r with chunks := [] }, r.chunks.flatten, r.term)

/-- `ioutil.NopCloser(bytes.NewBuffer(b))`: a fresh stream over `b` ending in
`io.EOF`. -/
def NopCloserNewBuffer (b : List Byte) : ReadCloser :=
  { chunks := if b = [] then [] else [b], term := none }

/-- The part of an `http.Request` that the middleware reads or writes. `Body` is
`none` for a nil body. -/
structure Request where
  Header : Header
  Host : String
  RequestURI : String
  Method : String
  URLPath : String
  Body : Option ReadCloser

/-- `req.Referer()`. -/
def Request.Referer (req : Request) : String := req.Header.Get "Referer"

/-- `req.UserAgent()`. -/
def Request.UserAgent (req : Request) : String := req.Header.Get "User-Agent"

/-- The `io.Writer` values that can stand behind `res.Writer`:
the server's own `http.ResponseWriter`, a `*bytes.Buffer` (by its index among the
buffers of the exchange), an `io.MultiWriter` of two writers, and the
`bodyDumpResponseWriter` of this file with its two embedded fields. -/
inductive Writer where
  | http
  | buffer (id : Nat)
  | multi (w1 w2 : Writer)
  | bodyDump (writer responseWriter : Writer)

/-- The server's `http.ResponseWriter`: the bytes it has delivered to the client
so far, and how its next `Write` calls behave. An entry `(n, err)` makes the next
call deliver at most `n` bytes of its argument and return `err`; once the list is
used up every call delivers its whole argument and returns nil. -/
structure ResponseWriter where
  sent : List Byte
  script : List (Nat × Option Err)

/-- `Write` on the server's `http.ResponseWriter`. -/
def ResponseWriter.Write (w : ResponseWriter) (p : List Byte) :
    ResponseWriter × Nat × Option Err :=
  match w.script with
  | [] => ({ w with sent := w.sent ++ p }, p.length, none)
  | (n, err) :: rest => ({ sent := w.sent ++ p.take n, script := rest }, min n p.length, err)

/-- The part of an `echo.Response` that the middleware reads or writes. `Header`
is the header map that `res.Header()` returns. -/
structure Response where
  Header : Header
  Status : Int
  Size : Int
  Writer : Writer

/-- A value stored in the field map (`interface{}`): a string, a string given by
its bytes, an integer, an `error`, and the two strings that the time package
renders: `t.UTC().Format(time.RFC3339)` of an instant and `d.String()` of a
duration, both kept as the nanosecond count they render. -/
inductive Value where
  | str (s : String)
  | text (b : List Byte)
  | int (n : Int)
  | error (e : Option Err)
  | rfc3339 (t : Int)
  | duration (d : Int)
  deriving DecidableEq, Repr

/-- A `map[string]interface{}` / `logrus.Fields`, as its entries. -/
abbrev Fields := List (String × Value)

/-- The assignment `m[key] = v`. -/
def Fields.set (m : Fields) (key : String) (v : Value) : Fields :=
  if m.any (·.1 == key) then m.map (fun kv => if kv.1 == key then (key, v) else kv)
  else m ++ [(key, v)]

/-- `strconv.FormatInt(n, 10)`. -/
def FormatInt (n : Int) : String := toString n

/-- The mutable state that one request/response exchange can reach. The
`http.Request` and `echo.Response` objects live at addresses, and `req` and `res`
are the addresses that `c.Request()` and `c.Response()` currently return (they
change with `c.SetRequest` and `c.SetResponse`). Then the server's response
writer, the content of each `bytes.Buffer` by its index with the number of
buffers allocated so far, the readings that the coming calls of `time.Now()`
return (in nanoseconds), the logrus loggers of the process, and the entries
that the standard logger has written to its output. -/
structure Exchange where
  requests : Nat → Request
  req : Nat
  responses : Nat → Response
  res : Nat
  rw : ResponseWriter
  buffers : Nat → List Byte
  allocated : Nat
  clock : List Int
  logrus : Logrus
  out : List (Level × Fields × String)

/-- The object behind `c.Request()`. -/
def Exchange.request (x : Exchange) : Request := x.requests x.req

/-- The object behind `c.Response()`. -/
def Exchange.response (x : Exchange) : Response := x.responses x.res

/-- `c.SetRequest(r)`, for a request object `r` placed at address `p`. -/
def Exchange.SetRequest (x : Exchange) (p : Nat) (r : Request) : Exchange :=
  { x with requests := Function.update x.requests p r, req := p }

/-- The package call `logrus.WithFields(fields).Log(level, msg)`, for a level
that neither panics nor exits: the standard logger writes the entry when
`IsLevelEnabled(level)`, that is when its own level is at least `level`, and
drops it otherwise. -/
def Exchange.Log (x : Exchange) (level : Level) (fields : Fields) (msg : String) : Exchange :=
  { x with out := x.out ++ if level ≤ x.logrus.std.Level then [(level, fields, msg)] else [] }

/-- `io.ErrShortWrite`. -/
def ErrShortWrite : Err := "short write"

/-- `Write` on each kind of writer. `bytes.Buffer.Write` appends and returns
`len(p), nil`. `io.MultiWriter` writes to its writers in order and stops at the
first one that returns an error or a count other than `len(p)` (then reported as
`io.ErrShortWrite`). `bodyDumpResponseWriter.Write` is `w.Writer.Write(b)`. -/
def Writer.Write : Writer → Exchange → List Byte → Exchange × Nat × Option Err
  | .http, x, p =>
    let (rw, n, err) := x.rw.Write p
    ({ x with rw := rw }, n, err)
  | .buffer id, x, p =>
    ({ x with buffers := Function.update x.buffers id (x.buffers id ++ p) }, p.length, none)
  | .multi w1 w2, x, p =>
    let (x, n, err) := w1.Write x p
    if err.isSome then (x, n, err)
    else if n ≠ p.length then (x, n, some ErrShortWrite)
    else
      let (x, n, err) := w2.Write x p
      if err.isSome then (x, n, err)
      else if n ≠ p.length then (x, n, some ErrShortWrite)
      else (x, p.length, none)
  | .bodyDump w _, x, p => w.Write x p

/-- `new(bytes.Buffer)`: allocates an empty buffer and returns its index. -/
def Exchange.newBuffer (x : Exchange) : Nat × Exchange :=
  (x.allocated,
    { x with buffers := Function.update x.buffers x.allocated [], allocated := x.allocated + 1 })

/-- `(*bytes.Buffer).String()` (and `Bytes()`): the content of a buffer. -/
def Exchange.bufferString (x : Exchange) (id : Nat) : List Byte :=
  x.buffers id

/-- `time.Now()`: takes the next reading of the clock. -/
def Exchange.timeNow (x : Exchange) : Int × Exchange :=
  (x.clock.headD 0, { x with clock := x.clock.tail })

/-- The framework behind an `echo.Context`: the error handler that `c.Error`
delegates to, and how `c.RealIP()` is derived from the request. -/
structure Echo where
  HTTPErrorHandler : Err → Exchange → Exchange
  RealIP : Request → String

/-- An `echo.Context`: the exchange it gives access to and its framework. -/
structure Context extends Exchange where
  echo : Echo

/-- `c.Error(err)`: hands the error to the framework's error handler. -/
def Context.Error (c : Context) (err : Err) : Context :=
  { c with toExchange := c.echo.HTTPErrorHandler err c.toExchange }

/-- `c.RealIP()`. -/
def Context.RealIP (c : Context) : String := c.echo.RealIP c.request

/-- An `echo.HandlerFunc`: what a handler does to the exchange, and the error it
returns. -/
abbrev HandlerFunc := Context → Context × Option Err

/-! ## The middleware -/

/-- `type LoggerConfig struct`. -/
structure LoggerConfig where
  IncludeRequestBodies : Bool
  IncludeResponseBodies : Bool
  deriving DecidableEq, Repr

/-- `func getBytesIn(req *http.Request) string`. -/
def getBytesIn (req : Request) : String :=
  let bytesIn := req.Header.Get HeaderContentLength
  if bytesIn = "" then "0" else bytesIn

/-- `func getPath(req *http.Request) string`. -/
def getPath (req : Request) : String :=
  let p := req.URLPath
  if p = "" then "/" else p

/-- `func getRequestID(req *http.Request, res *echo.Response) string`. -/
def getRequestID (req : Request) (res : Response) : String :=
  let id := req.Header.Get HeaderXRequestID
  if id = "" then res.Header.Get HeaderXRequestID else id

/-- A call that the middleware makes on one of its collaborators, with its
arguments. -/
inductive Call where
  /-- The call `ioutil.ReadAll(req.Body)`, with the stream as it was. -/
  | readAll (body : ReadCloser)
  /-- The call `next(c)`, with the state of `c` at the call. -/
  | next (c : Context)
  /-- The call `c.Error(err)`. -/
  | error (err : Err)
  /-- A call `logrus.WithFields(fields).Log(level, msg)`; `Info(msg)` is the one
  at `logrus.InfoLevel`. -/
  | log (level : Level) (fields : Fields) (msg : String)

/-- What one run of the middleware amounts to: the error it returns, the context
as it leaves it, and the calls it made, in order. -/
structure Run where
  ret : Option Err
  c : Context
  calls : List Call

/-- The call `logrus.WithFields(fields).Info(msg)`: `Log` at `logrus.InfoLevel`.
Returns the context afterwards and the call made. -/
def Context.Info (c : Context) (fields : Fields) (msg : String) : Context × List Call :=
  ({ c with toExchange := c.toExchange.Log InfoLevel fields msg },
    [Call.log InfoLevel fields msg])

/-- `time.Now()` on the exchange of a context. -/
def Context.timeNow (c : Context) : Int × Context :=
  (c.toExchange.timeNow.1, { c with toExchange := c.toExchange.timeNow.2 })

/-- The block `// Request` of `logrusMiddlewareHandler` (lines 107 to 114), on
the object `req := c.Request()`: with
`IncludeRequestBodies` it reads a non-nil `req.Body` to its end, dropping the
error of `ReadAll`, and sets `req.Body` to a fresh stream over the bytes read.
Returns `reqBody`, the context afterwards and the `ReadAll` call it made. -/
def requestBlock (c : Context) (config : LoggerConfig) : List Byte × Context × List Call :=
  if config.IncludeRequestBodies then
    let read : List Byte × List Call :=
      match c.request.Body with
      | some body => ((ReadAll body).2.1, [Call.readAll body])
      | none => ([], [])
    let reqBody := read.1
    let req := c.req
    let reset : Request := { c.requests req with Body := some (NopCloserNewBuffer reqBody) }
    (reqBody, { c with requests := Function.update c.requests req reset }, read.2)
  else ([], c, [])

/-- The block `// Response` of `logrusMiddlewareHandler` (lines 117 to 123), on
the object `res := c.Response()`: it
allocates `resBody` and, with `IncludeResponseBodies`, sets `res.Writer` to a
`bodyDumpResponseWriter` over `io.MultiWriter(res.Writer, resBody)`. Returns the
index of `resBody` and the context afterwards. -/
def responseBlock (c : Context) (config : LoggerConfig) : Nat × Context :=
  let resBody := c.toExchange.newBuffer.1
  let c : Context := { c with toExchange := c.toExchange.newBuffer.2 }
  if config.IncludeResponseBodies then
    let mw := Writer.multi c.response.Writer (.buffer resBody)
    let writer := Writer.bodyDump mw c.response.Writer
    let res := c.res
    let wrapped : Response := { c.responses res with Writer := writer }
    (resBody, { c with responses := Function.update c.responses res wrapped })
  else (resBody, c)

/-- Lines 125 to 128 of `logrusMiddlewareHandler`:
`if err = next(c); err != nil { c.Error(err) }`. Returns `err`, the context
afterwards and the calls made. -/
def nextBlock (c : Context) (next : HandlerFunc) : Option Err × Context × List Call :=
  let err := (next c).2
  match err with
  | some e => (err, (next c).1.Error e, [Call.next c, Call.error e])
  | none => (err, (next c).1, [Call.next c])

/-- Lines 130 to 155 of `logrusMiddlewareHandler`: `stop := time.Now()` and the
field map, first the map literal, then the two conditional assignments. `req`
and `res` are the addresses that the function bound before it called `next`
(lines 107 and 117); the map reads these objects as they are now, while
`c.RealIP()` goes through the context. Returns the map and the context
afterwards. -/
def fieldsBlock (c : Context) (req res : Nat) (start : Int) (err : Option Err)
    (reqBody : List Byte) (resBody : Nat) (config : LoggerConfig) : Fields × Context :=
  let stop := c.timeNow.1
  let c := c.timeNow.2
  let now := c.timeNow.1
  let c := c.timeNow.2
  let req := c.requests req
  let res := c.responses res
  let fieldsMap : Fields := [
    ("time_rfc3339", .rfc3339 now),
    ("remote_ip", .str c.RealIP),
    ("host", .str req.Host),
    ("uri", .str req.RequestURI),
    ("method", .str req.Method),
    ("path", .str (getPath req)),
    ("referer", .str req.Referer),
    ("user_agent", .str req.UserAgent),
    ("status", .int res.Status),
    ("latency", .str (FormatInt ((stop - start).tdiv 1000))),
    ("latency_human", .duration (stop - start)),
    ("bytes_in", .str (getBytesIn req)),
    ("bytes_out", .str (FormatInt res.Size)),
    ("request_id", .str (getRequestID req res)),
    ("error", .error err)]
  let fieldsMap :=
    if config.IncludeRequestBodies then fieldsMap.set "request_body" (.text reqBody)
    else fieldsMap
  let fieldsMap :=
    if config.IncludeResponseBodies then
      fieldsMap.set "response_body" (.text (c.bufferString resBody))
    else fieldsMap
  (fieldsMap, c)

/-- `func logrusMiddlewareHandler(c echo.Context, next echo.HandlerFunc, config LoggerConfig) error`:
the blocks above in the order of the source, then
`logrus.WithFields(fieldsMap).Info("handled request")` and `return nil`. -/
def logrusMiddlewareHandler (c : Context) (next : HandlerFunc) (config : LoggerConfig) : Run :=
  let start := c.timeNow.1
  let c := c.timeNow.2
  let req := c.req
  let request := requestBlock c config
  let reqBody := request.1
  let res := request.2.1.res
  let response := responseBlock request.2.1 config
  let resBody := response.1
  let handled := nextBlock response.2 next
  let err := handled.1
  let fields := fieldsBlock handled.2.1 req res start err reqBody resBody config
  let logged := fields.2.Info fields.1 "handled request"
  { ret := none
    c := logged.1
    calls := request.2.2 ++ handled.2.2 ++ logged.2 }

/-- The context with which `logrusMiddlewareHandler` calls `next`. -/
def handedToNext (c : Context) (config : LoggerConfig) : Context :=
  (responseBlock (requestBlock c.timeNow.2 config).2.1 config).2

/-- The context after exactly one call of `next` on `c` and, when that call
returned an error `e`, exactly one call `c.Error(e)` after it. -/
def handledOnce (next : HandlerFunc) (c : Context) : Context :=
  match (next c).2 with
  | some e => (next c).1.Error e
  | none => (next c).1

/-- The field map that `logrusMiddlewareHandler` builds on `c`: that of
`fieldsBlock` at the values that the function has bound by then. -/
def recordOf (c : Context) (next : HandlerFunc) (config : LoggerConfig) : Fields :=
  (fieldsBlock (nextBlock (handedToNext c config) next).2.1 c.req c.res c.timeNow.1
    (nextBlock (handedToNext c config) next).1 (requestBlock c.timeNow.2 config).1
    (responseBlock (requestBlock c.timeNow.2 config).2.1 config).1 config).1

/-- `func loggerHookWithConfig(config LoggerConfig) echo.MiddlewareFunc`. -/
def loggerHookWithConfig (config : LoggerConfig) (next : HandlerFunc) (c : Context) : Run :=
  logrusMiddlewareHandler c next config

/-- `func loggerHook() echo.MiddlewareFunc`, which passes `LoggerConfig{}`. -/
def loggerHook (next : HandlerFunc) (c : Context) : Run :=
  loggerHookWithConfig { IncludeRequestBodies := false, IncludeResponseBodies := false } next c

/-! ## Reading a run -/

/-- The log call behind a call, if it is one: level, fields and message. -/
def Call.log? : Call → Option (Level × Fields × String)
  | .log level fields msg => some (level, fields, msg)
  | _ => none

/-- The context of a call of `next`, if it is one. -/
def Call.next? : Call → Option Context
  | .next c => some c
  | _ => none

/-- The error of a call of `c.Error`, if it is one. -/
def Call.error? : Call → Option Err
  | .error e => some e
  | _ => none

/-- The stream of a call of `ioutil.ReadAll`, if it is one. -/
def Call.readAll? : Call → Option ReadCloser
  | .readAll body => some body
  | _ => none

/-- The log calls of a run: level, fields and message of each. -/
def Run.logs (r : Run) : List (Level × Fields × String) := r.calls.filterMap Call.log?

/-- The contexts with which a run called `next`. -/
def Run.nexts (r : Run) : List Context := r.calls.filterMap Call.next?

/-- The errors that a run passed to `c.Error`. -/
def Run.errors (r : Run) : List Err := r.calls.filterMap Call.error?

/-- The streams on which a run called `ioutil.ReadAll`. -/
def Run.reads (r : Run) : List ReadCloser := r.calls.filterMap Call.readAll?

/-- The bytes that a request body carries: what reading it to its end yields
(nothing for a nil body). -/
def carried : Option ReadCloser → List Byte
  | some body => body.chunks.flatten
  | none => []

/-- The exchange after the `Write` calls `res.Writer.Write(p)` for each `p` of
`ps`, in order, whatever each call returns. -/
def Exchange.writeAll (x : Exchange) (ps : List (List Byte)) : Exchange :=
  ps.foldl (fun x p => (x.response.Writer.Write x p).1) x

/-- A handler that makes the given `Write` calls on `res.Writer` and returns
`err`. -/
def writingHandler (ps : List (List Byte)) (err : Option Err) : HandlerFunc :=
  fun c => ({ c with toExchange := c.toExchange.writeAll ps }, err)

/-- The writer that the middleware installs when `res.Writer` is the server's
own writer, with the capture buffer at index `id`. -/
def dumpWriter (id : Nat) : Writer := .bodyDump (.multi .http (.buffer id)) .http

/-- The bytes that the server's response writer, given its script, delivers to
the client over the coming writes: of each chunk the part that its entry lets
through, and every chunk whole once the script is used up. -/
def delivered : List (Nat × Option Err) → List (List Byte) → List Byte
  | _, [] => []
  | [], p :: ps => p ++ delivered [] ps
  | (n, _) :: script, p :: ps => p.take n ++ delivered script ps

/-- The chunks, among the coming writes, that the server's response writer,
given its script, takes whole and without error, concatenated. -/
def captured : List (Nat × Option Err) → List (List Byte) → List Byte
  | _, [] => []
  | [], p :: ps => p ++ captured [] ps
  | (n, err) :: script, p :: ps =>
    (if err.isNone && decide (p.length ≤ n) then p else []) ++ captured script ps

/-- Whether the server's response writer, given its script, accepts each of the
coming writes whole: entry by entry, no error and a count that covers the
chunk. -/
def acceptsWhole : List (Nat × Option Err) → List (List Byte) → Bool
  | (n, err) :: script, p :: ps => err.isNone && decide (p.length ≤ n) && acceptsWhole script ps
  | _, _ => true

/-- The key set of a field map. -/
def Fields.keys (m : Fields) : List String := m.map Prod.fst

/-- The fifteen keys that the map literal of the middleware binds. -/
def coreKeys : List String :=
  ["time_rfc3339", "remote_ip", "host", "uri", "method", "path", "referer", "user_agent",
   "status", "latency", "latency_human", "bytes_in", "bytes_out", "request_id", "error"]

/-! ## Concrete inputs -/

/-- An adapter around a logger of its own, as `logrusLogger{logrus.New()}` builds. -/
def ownLoggerAdapter : logrusLogger := { Logger := .other 0 }

/-- An adapter around the standard logger, as
`logrusLogger{logrus.StandardLogger()}` builds. -/
def stdLoggerAdapter : logrusLogger := { Logger := .std }

/-- A process with the standard logger and one more logger, both at the level
`logrus.New()` starts with. -/
def twoLoggers : Logrus := { std := { Level := InfoLevel }, others := [{ Level := InfoLevel }] }

/-- A framework whose error handler leaves the exchange alone. -/
def quietEcho : Echo := { HTTPErrorHandler := fun _ x => x, RealIP := fun _ => "192.0.2.1" }

/-- A request `POST /submit` with the seven-byte body `{"a":1}` sent in two
pieces, a declared content length of `123` and the request id `abc`. -/
def submitRequest : Request :=
  { Header := [("Content-Length", ["123"]), ("X-Request-Id", ["abc"])]
    Host := "example.org"
    RequestURI := "/submit"
    Method := "POST"
    URLPath := "/submit"
    Body := some { chunks := [[123, 34, 97], [34, 58, 49, 125]], term := none } }

/-- A response that so far only carries a request id of its own, `xyz`. -/
def freshResponse : Response :=
  { Header := [("X-Request-Id", ["xyz"])], Status := 0, Size := 0, Writer := .http }

/-- The context of the request `submitRequest` on a connection that takes every
write. -/
def submitContext : Context :=
  { requests := fun _ => submitRequest
    req := 0
    responses := fun _ => freshResponse
    res := 0
    rw := { sent := [], script := [] }
    buffers := fun _ => []
    allocated := 0
    clock := [0, 5000, 6000]
    logrus := twoLoggers
    out := []
    echo := quietEcho }

/-- The same context in a process where `SetLevel(WARN)` of the adapter has
run. -/
def warnContext : Context :=
  { submitContext with logrus := (stdLoggerAdapter.SetLevel WARN twoLoggers).1 }

/-- The request `submitRequest` with a declared content length of `999`. -/
def longerRequest : Request :=
  { submitRequest with Header := [("Content-Length", ["999"]), ("X-Request-Id", ["abc"])] }

/-- A handler that replaces the request of the context, `c.SetRequest(r)`, by a
new object at address 1 that declares a content length of `999`, and returns
nil. -/
def replacingHandler : HandlerFunc :=
  fun c => ({ c with toExchange := c.toExchange.SetRequest 1 longerRequest }, none)

/-- The same context on a connection that breaks during the first write: the
writer delivers one byte and returns an error. -/
def brokenPipeContext : Context :=
  { submitContext with rw := { sent := [], script := [(1, some "broken pipe")] } }

/-- A framework whose error handler renders every error as the one byte `!`,
written through `res.Writer`. -/
def renderingEcho : Echo :=
  { HTTPErrorHandler := fun _ x => x.writeAll [[33]], RealIP := fun _ => "192.0.2.1" }

/-- The context of `submitRequest` under `renderingEcho`, on a connection whose
first write has room for 16 bytes and which takes every later write whole. -/
def renderingContext : Context :=
  { submitContext with rw := { sent := [], script := [(16, none)] }, echo := renderingEcho }

/-- A request without headers, path or body. -/
def bareRequest : Request :=
  { Header := [], Host := "", RequestURI := "", Method := "GET", URLPath := "", Body := none }

/-- A response without headers. -/
def bareResponse : Response := { Header := [], Status := 0, Size := 0, Writer := .http }

/-- A handler that writes `ok` and returns nil. -/
def okHandler : HandlerFunc := writingHandler [[111, 107]] none

/-- A handler that rewrites the declared content length on the request object
it was given, `c.Request().Header.Set("Content-Length", "5")`, and returns nil. -/
def rewritingHandler : HandlerFunc :=
  fun c =>
    let rewritten : Request := { c.request with Header := [("Content-Length", ["5"])] }
    ({ c with requests := Function.update c.requests c.req rewritten }, none)

/-- A handler that writes `ok` and then returns an error. -/
def okThenFailHandler : HandlerFunc := writingHandler [[111, 107]] (some "boom")

/-- A handler that writes nothing and returns an error. -/
def failingHandler : HandlerFunc := writingHandler [] (some "boom")

/-! ## The adapter -/

/-- C6 (as stated, refuted): an adapter that wraps a logger of its own, at
`InfoLevel`, still reports `INFO` after `SetLevel(DEBUG)`, since `SetLevel` writes
the level of the standard logger and `Level` reads the wrapped one. -/
theorem SetLevel_DEBUG_then_Level_own_logger :
    ownLoggerAdapter.Level (ownLoggerAdapter.SetLevel DEBUG twoLoggers).1 = .ok INFO ∧
    ownLoggerAdapter.Level (ownLoggerAdapter.SetLevel DEBUG twoLoggers).1 ≠ .ok DEBUG := by
  constructor
  · rfl
  · intro h
    cases h

/-- C6 (amended): on an adapter that wraps the standard logger, `SetLevel(v)`
followed by `Level()` returns `v`, for each of DEBUG, INFO, WARN, ERROR; on an
adapter that wraps any other logger, `SetLevel` leaves the result of `Level()`
as it was. -/
theorem SetLevel_then_Level (l : logrusLogger) (s : Logrus) (v : Lvl) :
    (l.Logger = .std → v ∈ [DEBUG, INFO, WARN, ERROR] →
      l.Level (l.SetLevel v s).1 = .ok v) ∧
    (l.Logger ≠ .std → l.Level (l.SetLevel v s).1 = l.Level s) := by
  obtain ⟨p⟩ := l
  constructor
  · intro hl hv
    simp only at hl
    subst hl
    simp only [List.mem_cons, List.mem_singleton, List.not_mem_nil, or_false] at hv
    rcases hv with h | h | h | h <;> subst h <;>
      simp [logrusLogger.SetLevel, logrusLogger.Level, logrusSetLevel, Logrus.deref,
        DEBUG, INFO, WARN, ERROR, DebugLevel, InfoLevel, WarnLevel, ErrorLevel]
  · intro hl
    cases p with
    | std => exact absurd rfl hl
    | other i =>
      unfold logrusLogger.SetLevel
      split_ifs <;> rfl

/-- The amended C6 at a concrete adapter: `SetLevel(DEBUG)` then `Level()` on the
adapter around the standard logger gives `DEBUG`. -/
theorem SetLevel_then_Level_witness :
    stdLoggerAdapter.Level (stdLoggerAdapter.SetLevel DEBUG twoLoggers).1 = .ok DEBUG :=
  (SetLevel_then_Level stdLoggerAdapter twoLoggers DEBUG).1 rfl (by decide)

/-- C7: `Level()` maps the level of the wrapped logger: Debug to DEBUG, Warn to
WARN, Error to ERROR, Info to INFO; at any other level (Trace, Fatal, Panic, the
zero value) it panics with "Invalid level"; it never returns OFF; and two calls
that return the same value read the same backend level. -/
theorem Level_maps_backend_level (l : logrusLogger) (s : Logrus) :
    ((s.deref l.Logger).Level = DebugLevel → l.Level s = .ok DEBUG) ∧
    ((s.deref l.Logger).Level = WarnLevel → l.Level s = .ok WARN) ∧
    ((s.deref l.Logger).Level = ErrorLevel → l.Level s = .ok ERROR) ∧
    ((s.deref l.Logger).Level = InfoLevel → l.Level s = .ok INFO) ∧
    ((s.deref l.Logger).Level ∉ [DebugLevel, WarnLevel, ErrorLevel, InfoLevel] →
      l.Level s = .error "Invalid level") ∧
    ((s.deref l.Logger).Level ∈ [TraceLevel, FatalLevel, PanicLevel, 0] →
      l.Level s = .error "Invalid level") ∧
    l.Level s ≠ .ok OFF ∧
    (∀ (l2 : logrusLogger) (s2 : Logrus) (v : Lvl), l.Level s = .ok v → l2.Level s2 = .ok v →
      (s.deref l.Logger).Level = (s2.deref l2.Logger).Level) := by
  refine ⟨?_, ?_, ?_, ?_, ?_, ?_, ?_, ?_⟩
  · intro h
    simp [logrusLogger.Level, h]
  · intro h
    simp [logrusLogger.Level, h, WarnLevel, DebugLevel]
  · intro h
    simp [logrusLogger.Level, h, ErrorLevel, WarnLevel, DebugLevel]
  · intro h
    simp [logrusLogger.Level, h, InfoLevel, ErrorLevel, WarnLevel, DebugLevel]
  · intro h
    simp only [List.mem_cons, List.mem_singleton, List.not_mem_nil, or_false, not_or] at h
    simp [logrusLogger.Level, logrusLogger.Panic, h.1, h.2.1, h.2.2.1, h.2.2.2]
  · intro h
    simp only [List.mem_cons, List.mem_singleton, List.not_mem_nil, or_false] at h
    rcases h with h | h | h | h <;>
      simp [logrusLogger.Level, logrusLogger.Panic, h, TraceLevel, FatalLevel, PanicLevel,
        InfoLevel, ErrorLevel, WarnLevel, DebugLevel]
  · unfold logrusLogger.Level logrusLogger.Panic
    simp only
    split_ifs <;> simp [DEBUG, WARN, ERROR, INFO, OFF]
  · intro l2 s2 v h1 h2
    unfold logrusLogger.Level logrusLogger.Panic at h1 h2
    simp only at h1 h2
    split_ifs at h1 h2 <;>
      simp only [Except.ok.injEq, reduceCtorEq, DEBUG, WARN, ERROR, INFO] at h1 h2 <;>
      first
        | exact absurd (h1.trans h2.symm) (by decide)
        | simp_all

/-- C7 at concrete states: the adapter around the standard logger reads INFO at
`InfoLevel`, and panics once the standard logger is at the zero level. -/
theorem Level_maps_backend_level_witness :
    stdLoggerAdapter.Level twoLoggers = .ok INFO ∧
    stdLoggerAdapter.Level (logrusSetLevel 0 twoLoggers) = .error "Invalid level" :=
  ⟨(Level_maps_backend_level stdLoggerAdapter twoLoggers).2.2.2.1 rfl,
   (Level_maps_backend_level stdLoggerAdapter (logrusSetLevel 0 twoLoggers)).2.2.2.2.1
     (by decide)⟩

/-- C8: `SetLevel(lvl)` panics with "Invalid level" exactly when `lvl` is none of
DEBUG, WARN, ERROR, INFO; for these four it returns, with the standard logger at
Debug, Warn, Error, Info respectively and every other logger untouched; and when
it does not return, the loggers are as they were. -/
theorem SetLevel_panics_iff_invalid (l : logrusLogger) (lvl : Lvl) (s : Logrus) :
    ((l.SetLevel lvl s).2 = .error "Invalid level" ↔ lvl ∉ [DEBUG, WARN, ERROR, INFO]) ∧
    ((l.SetLevel lvl s).2 ≠ .ok () ↔ lvl ∉ [DEBUG, WARN, ERROR, INFO]) ∧
    (lvl = DEBUG → (l.SetLevel lvl s).2 = .ok () ∧ (l.SetLevel lvl s).1.std.Level = DebugLevel) ∧
    (lvl = WARN → (l.SetLevel lvl s).2 = .ok () ∧ (l.SetLevel lvl s).1.std.Level = WarnLevel) ∧
    (lvl = ERROR → (l.SetLevel lvl s).2 = .ok () ∧ (l.SetLevel lvl s).1.std.Level = ErrorLevel) ∧
    (lvl = INFO → (l.SetLevel lvl s).2 = .ok () ∧ (l.SetLevel lvl s).1.std.Level = InfoLevel) ∧
    (l.SetLevel lvl s).1.others = s.others ∧
    ((l.SetLevel lvl s).2 ≠ .ok () → (l.SetLevel lvl s).1 = s) := by
  unfold logrusLogger.SetLevel logrusLogger.Panic
  simp only [List.mem_cons, List.mem_singleton, List.not_mem_nil, or_false, not_or]
  split_ifs with h1 h2 h3 h4 <;>
    simp_all [logrusSetLevel, DEBUG, WARN, ERROR, INFO]

/-- C8 at concrete levels: `SetLevel(OFF)` panics and leaves the loggers as they
were, `SetLevel(WARN)` returns with the standard logger at `WarnLevel`. -/
theorem SetLevel_panics_iff_invalid_witness :
    (stdLoggerAdapter.SetLevel OFF twoLoggers).2 = .error "Invalid level" ∧
    (stdLoggerAdapter.SetLevel OFF twoLoggers).1 = twoLoggers ∧
    (stdLoggerAdapter.SetLevel WARN twoLoggers).1.std.Level = WarnLevel :=
  ⟨(SetLevel_panics_iff_invalid stdLoggerAdapter OFF twoLoggers).1.2 (by decide),
   (SetLevel_panics_iff_invalid stdLoggerAdapter OFF twoLoggers).2.2.2.2.2.2.2
     (by intro h; cases h),
   ((SetLevel_panics_iff_invalid stdLoggerAdapter WARN twoLoggers).2.2.2.1 rfl).2⟩

/-! ## The blocks of the middleware -/

theorem requestBlock_calls (c : Context) (config : LoggerConfig) :
    (requestBlock c config).2.2 =
      if config.IncludeRequestBodies then c.request.Body.toList.map Call.readAll else [] := by
  unfold requestBlock
  split_ifs
  · cases c.request.Body <;> rfl
  · rfl

theorem requestBlock_reqBody (c : Context) (config : LoggerConfig) :
    (requestBlock c config).1 = if config.IncludeRequestBodies then carried c.request.Body else [] := by
  unfold requestBlock
  split_ifs
  · cases c.request.Body <;> rfl
  · rfl

theorem requestBlock_body (c : Context) (config : LoggerConfig) :
    (requestBlock c config).2.1.request.Body =
      if config.IncludeRequestBodies then some (NopCloserNewBuffer (carried c.request.Body))
      else c.request.Body := by
  unfold requestBlock
  split_ifs
  · cases h : c.request.Body <;> simp [Exchange.request, carried, ReadAll]
  · rfl

theorem requestBlock_header (c : Context) (config : LoggerConfig) :
    ((requestBlock c config).2.1.requests c.req).Header = c.request.Header := by
  unfold requestBlock
  split_ifs
  · simp [Exchange.request]
  · rfl

theorem requestBlock_state (c : Context) (config : LoggerConfig) :
    (requestBlock c config).2.1.req = c.req ∧
    (requestBlock c config).2.1.res = c.res ∧
    (requestBlock c config).2.1.responses = c.responses ∧
    (requestBlock c config).2.1.rw = c.rw ∧
    (requestBlock c config).2.1.buffers = c.buffers ∧
    (requestBlock c config).2.1.allocated = c.allocated ∧
    (requestBlock c config).2.1.echo = c.echo := by
  unfold requestBlock
  split_ifs <;> exact ⟨rfl, rfl, rfl, rfl, rfl, rfl, rfl⟩

theorem responseBlock_request (c : Context) (config : LoggerConfig) :
    (responseBlock c config).2.requests = c.requests ∧ (responseBlock c config).2.req = c.req := by
  unfold responseBlock
  split_ifs <;> exact ⟨rfl, rfl⟩

theorem nextBlock_calls (c : Context) (next : HandlerFunc) :
    (nextBlock c next).2.2 = Call.next c :: (next c).2.toList.map Call.error := by
  unfold nextBlock
  cases (next c).2 <;> rfl

theorem nextBlock_err (c : Context) (next : HandlerFunc) :
    (nextBlock c next).1 = (next c).2 := by
  unfold nextBlock
  cases h : (next c).2 <;> simp

theorem nextBlock_context (c : Context) (next : HandlerFunc) :
    (nextBlock c next).2.1 = handledOnce next c := by
  unfold nextBlock handledOnce
  cases h : (next c).2 <;> simp

theorem fieldsBlock_keys (c : Context) (req res : Nat) (start : Int) (err : Option Err)
    (reqBody : List Byte) (resBody : Nat) (config : LoggerConfig) :
    (fieldsBlock c req res start err reqBody resBody config).1.keys =
      coreKeys ++ (if config.IncludeRequestBodies then ["request_body"] else []) ++
        (if config.IncludeResponseBodies then ["response_body"] else []) := by
  obtain ⟨rq, rs⟩ := config
  cases rq <;> cases rs <;> rfl

theorem fieldsBlock_error (c : Context) (req res : Nat) (start : Int) (err : Option Err)
    (reqBody : List Byte) (resBody : Nat) (config : LoggerConfig) :
    (fieldsBlock c req res start err reqBody resBody config).1.lookup "error" =
      some (.error err) := by
  obtain ⟨rq, rs⟩ := config
  cases rq <;> cases rs <;> rfl

theorem fieldsBlock_bytes_in (c : Context) (req res : Nat) (start : Int) (err : Option Err)
    (reqBody : List Byte) (resBody : Nat) (config : LoggerConfig) :
    (fieldsBlock c req res start err reqBody resBody config).1.lookup "bytes_in" =
      some (.str (getBytesIn (c.requests req))) := by
  obtain ⟨rq, rs⟩ := config
  cases rq <;> cases rs <;> rfl

theorem fieldsBlock_request_body (c : Context) (req res : Nat) (start : Int) (err : Option Err)
    (reqBody : List Byte) (resBody : Nat) (rs : Bool) :
    (fieldsBlock c req res start err reqBody resBody
      { IncludeRequestBodies := true, IncludeResponseBodies := rs }).1.lookup "request_body" =
      some (.text reqBody) := by
  cases rs <;> rfl

theorem fieldsBlock_response_body (c : Context) (req res : Nat) (start : Int) (err : Option Err)
    (reqBody : List Byte) (resBody : Nat) (rq : Bool) :
    (fieldsBlock c req res start err reqBody resBody
      { IncludeRequestBodies := rq, IncludeResponseBodies := true }).1.lookup "response_body" =
      some (.text (c.buffers resBody)) := by
  cases rq <;> rfl

/-- What `fieldsBlock` does to the context: it takes two readings of the clock. -/
theorem fieldsBlock_context (c : Context) (req res : Nat) (start : Int) (err : Option Err)
    (reqBody : List Byte) (resBody : Nat) (config : LoggerConfig) :
    (fieldsBlock c req res start err reqBody resBody config).2 = c.timeNow.2.timeNow.2 := rfl

/-- The run, block by block: its calls and the context it leaves. -/
theorem logrusMiddlewareHandler_run (c : Context) (next : HandlerFunc) (config : LoggerConfig) :
    (logrusMiddlewareHandler c next config).calls =
      (if config.IncludeRequestBodies then c.request.Body.toList.map Call.readAll else []) ++
      (Call.next (handedToNext c config) ::
        (next (handedToNext c config)).2.toList.map Call.error) ++
      [Call.log InfoLevel (recordOf c next config) "handled request"] ∧
    (logrusMiddlewareHandler c next config).c =
      { handledOnce next (handedToNext c config) with
        clock := (handledOnce next (handedToNext c config)).clock.tail.tail
        out := (handledOnce next (handedToNext c config)).out ++
          if InfoLevel ≤ (handledOnce next (handedToNext c config)).logrus.std.Level then
            [(InfoLevel, recordOf c next config, "handled request")]
          else [] } := by
  have hres : (requestBlock c.timeNow.2 config).2.1.res = c.res :=
    (requestBlock_state c.timeNow.2 config).2.1
  have hcalls : (logrusMiddlewareHandler c next config).calls =
      (requestBlock c.timeNow.2 config).2.2 ++ (nextBlock (handedToNext c config) next).2.2 ++
      [Call.log InfoLevel
        (fieldsBlock (nextBlock (handedToNext c config) next).2.1 c.req
          (requestBlock c.timeNow.2 config).2.1.res c.timeNow.1
          (nextBlock (handedToNext c config) next).1 (requestBlock c.timeNow.2 config).1
          (responseBlock (requestBlock c.timeNow.2 config).2.1 config).1 config).1
        "handled request"] := rfl
  have hc : (logrusMiddlewareHandler c next config).c =
      { (nextBlock (handedToNext c config) next).2.1 with
        clock := (nextBlock (handedToNext c config) next).2.1.clock.tail.tail
        out := (nextBlock (handedToNext c config) next).2.1.out ++
          if InfoLevel ≤ (nextBlock (handedToNext c config) next).2.1.logrus.std.Level then
            [(InfoLevel,
              (fieldsBlock (nextBlock (handedToNext c config) next).2.1 c.req
                (requestBlock c.timeNow.2 config).2.1.res c.timeNow.1
                (nextBlock (handedToNext c config) next).1 (requestBlock c.timeNow.2 config).1
                (responseBlock (requestBlock c.timeNow.2 config).2.1 config).1 config).1,
              "handled request")]
          else [] } := rfl
  constructor
  · rw [hcalls, hres, requestBlock_calls, nextBlock_calls]
    rfl
  · rw [hc, hres]
    unfold recordOf
    rw [nextBlock_context]

theorem filterMap_readAll (l : List ReadCloser) :
    (l.map Call.readAll).filterMap Call.log? = [] ∧
    (l.map Call.readAll).filterMap Call.next? = [] ∧
    (l.map Call.readAll).filterMap Call.error? = [] ∧
    (l.map Call.readAll).filterMap Call.readAll? = l := by
  induction l with
  | nil => exact ⟨rfl, rfl, rfl, rfl⟩
  | cons a l ih =>
    obtain ⟨h1, h2, h3, h4⟩ := ih
    simp [Call.log?, Call.next?, Call.error?, Call.readAll?, h1, h2, h3, h4]

theorem filterMap_error (l : List Err) :
    (l.map Call.error).filterMap Call.log? = [] ∧
    (l.map Call.error).filterMap Call.next? = [] ∧
    (l.map Call.error).filterMap Call.error? = l ∧
    (l.map Call.error).filterMap Call.readAll? = [] := by
  induction l with
  | nil => exact ⟨rfl, rfl, rfl, rfl⟩
  | cons a l ih =>
    obtain ⟨h1, h2, h3, h4⟩ := ih
    simp [Call.log?, Call.next?, Call.error?, Call.readAll?, h1, h2, h3, h4]

/-- The one log call of a run. -/
theorem logrusMiddlewareHandler_logs (c : Context) (next : HandlerFunc) (config : LoggerConfig) :
    (logrusMiddlewareHandler c next config).logs =
      [(InfoLevel, recordOf c next config, "handled request")] := by
  unfold Run.logs
  rw [(logrusMiddlewareHandler_run c next config).1]
  simp only [List.filterMap_append, List.filterMap_cons, List.filterMap_nil, Call.log?,
    (filterMap_error _).1]
  split_ifs <;>
    simp only [(filterMap_readAll _).1, List.filterMap_nil, List.nil_append, List.append_nil]

/-- The one call of `next` of a run. -/
theorem logrusMiddlewareHandler_nexts (c : Context) (next : HandlerFunc) (config : LoggerConfig) :
    (logrusMiddlewareHandler c next config).nexts = [handedToNext c config] := by
  unfold Run.nexts
  rw [(logrusMiddlewareHandler_run c next config).1]
  simp only [List.filterMap_append, List.filterMap_cons, List.filterMap_nil, Call.next?,
    (filterMap_error _).2.1]
  split_ifs <;>
    simp only [(filterMap_readAll _).2.1, List.filterMap_nil, List.nil_append, List.append_nil]

/-- The calls of `c.Error` of a run. -/
theorem logrusMiddlewareHandler_errors (c : Context) (next : HandlerFunc) (config : LoggerConfig) :
    (logrusMiddlewareHandler c next config).errors = (next (handedToNext c config)).2.toList := by
  unfold Run.errors
  rw [(logrusMiddlewareHandler_run c next config).1]
  simp only [List.filterMap_append, List.filterMap_cons, List.filterMap_nil, Call.error?,
    (filterMap_error _).2.2.1]
  split_ifs <;>
    simp only [(filterMap_readAll _).2.2.1, List.filterMap_nil, List.nil_append, List.append_nil]

/-- The calls of `ioutil.ReadAll` of a run. -/
theorem logrusMiddlewareHandler_reads (c : Context) (next : HandlerFunc) (config : LoggerConfig) :
    (logrusMiddlewareHandler c next config).reads =
      if config.IncludeRequestBodies then c.request.Body.toList else [] := by
  unfold Run.reads
  rw [(logrusMiddlewareHandler_run c next config).1]
  simp only [List.filterMap_append, List.filterMap_cons, List.filterMap_nil, Call.readAll?,
    (filterMap_error _).2.2.2]
  split_ifs <;>
    simp only [(filterMap_readAll _).2.2.2, List.filterMap_nil, List.nil_append, List.append_nil]

theorem handedToNext_body (c : Context) (config : LoggerConfig) :
    (handedToNext c config).request.Body =
      if config.IncludeRequestBodies then some (NopCloserNewBuffer (carried c.request.Body))
      else c.request.Body := by
  have h := requestBlock_body c.timeNow.2 config
  unfold handedToNext Exchange.request
  rw [(responseBlock_request _ config).1, (responseBlock_request _ config).2]
  exact h

theorem ReadAll_NopCloserNewBuffer (b : List Byte) :
    (ReadAll (NopCloserNewBuffer b)).2 = (b, none) := by
  unfold ReadAll NopCloserNewBuffer
  by_cases h : b = []
  · simp [h]
  · simp [h]

theorem recordOf_keys (c : Context) (next : HandlerFunc) (config : LoggerConfig) :
    (recordOf c next config).keys =
      coreKeys ++ (if config.IncludeRequestBodies then ["request_body"] else []) ++
        (if config.IncludeResponseBodies then ["response_body"] else []) :=
  fieldsBlock_keys _ _ _ _ _ _ _ _

theorem recordOf_error (c : Context) (next : HandlerFunc) (config : LoggerConfig) :
    (recordOf c next config).lookup "error" = some (.error (next (handedToNext c config)).2) := by
  unfold recordOf
  rw [fieldsBlock_error, nextBlock_err]

theorem recordOf_bytes_in (c : Context) (next : HandlerFunc) (config : LoggerConfig) :
    (recordOf c next config).lookup "bytes_in" =
      some (.str (getBytesIn ((handledOnce next (handedToNext c config)).requests c.req))) := by
  unfold recordOf
  rw [fieldsBlock_bytes_in, nextBlock_context]

theorem recordOf_request_body (c : Context) (next : HandlerFunc) (rs : Bool) :
    (recordOf c next ⟨true, rs⟩).lookup "request_body" = some (.text (carried c.request.Body)) := by
  unfold recordOf
  rw [fieldsBlock_request_body, requestBlock_reqBody, if_pos rfl]
  rfl

/-! ## The middleware -/

/-- C1 (as stated, refuted): once `SetLevel(WARN)` of the adapter has run, the
middleware still makes its one call `Info("handled request")`, but the standard
logger drops it: the run writes no record. -/
theorem no_record_at_WarnLevel :
    (logrusMiddlewareHandler warnContext okHandler ⟨false, false⟩).logs.length = 1 ∧
    warnContext.out = [] ∧
    (logrusMiddlewareHandler warnContext okHandler ⟨false, false⟩).c.out = [] :=
  ⟨rfl, rfl, rfl⟩

/-- C1 (amended): whatever the context, the config and the handler, and whether
the handler returns nil or an error, the run makes exactly one log call, on the
standard logger, at `InfoLevel`, with the message "handled request" and the
field map built for the request; so it adds exactly this one record to the
output when the standard logger is then at `InfoLevel` or above (Info, Debug,
Trace), and no record when it is below (Warn, Error, Fatal, Panic). -/
theorem one_log_call_per_request (c : Context) (next : HandlerFunc) (config : LoggerConfig) :
    ∃ fields : Fields,
      (logrusMiddlewareHandler c next config).logs = [(InfoLevel, fields, "handled request")] ∧
      fields = recordOf c next config ∧
      (∀ k ∈ coreKeys, k ∈ fields.keys) ∧
      fields.lookup "error" = some (.error (next (handedToNext c config)).2) ∧
      (logrusMiddlewareHandler c next config).c.out =
        (handledOnce next (handedToNext c config)).out ++
          (if InfoLevel ≤ (handledOnce next (handedToNext c config)).logrus.std.Level then
            [(InfoLevel, fields, "handled request")]
          else []) ∧
      (InfoLevel ≤ (handledOnce next (handedToNext c config)).logrus.std.Level →
        (logrusMiddlewareHandler c next config).c.out =
          (handledOnce next (handedToNext c config)).out ++
            [(InfoLevel, fields, "handled request")]) ∧
      ((handledOnce next (handedToNext c config)).logrus.std.Level < InfoLevel →
        (logrusMiddlewareHandler c next config).c.out =
          (handledOnce next (handedToNext c config)).out) := by
  have hout : (logrusMiddlewareHandler c next config).c.out =
      (handledOnce next (handedToNext c config)).out ++
        (if InfoLevel ≤ (handledOnce next (handedToNext c config)).logrus.std.Level then
          [(InfoLevel, recordOf c next config, "handled request")]
        else []) := by
    rw [(logrusMiddlewareHandler_run c next config).2]
  refine ⟨_, logrusMiddlewareHandler_logs c next config, rfl, ?_, recordOf_error c next config,
    hout, ?_, ?_⟩
  · intro k hk
    rw [recordOf_keys]
    simp only [List.mem_append]
    exact Or.inl (Or.inl hk)
  · intro h
    rw [hout, if_pos h]
  · intro h
    rw [hout, if_neg (Nat.not_le_of_lt h), List.append_nil]

/-- The amended C1 at concrete runs: at `InfoLevel` the run on `submitContext`
writes its one record, and once the standard logger is at `WarnLevel` it
writes none. -/
theorem one_log_call_per_request_witness :
    (∃ fields : Fields,
      (logrusMiddlewareHandler submitContext okHandler ⟨true, true⟩).c.out =
        [(InfoLevel, fields, "handled request")]) ∧
    (logrusMiddlewareHandler warnContext failingHandler ⟨true, true⟩).c.out = [] := by
  obtain ⟨fields, _, _, _, _, _, h1, _⟩ :=
    one_log_call_per_request submitContext okHandler ⟨true, true⟩
  obtain ⟨_, _, _, _, _, _, _, h2⟩ :=
    one_log_call_per_request warnContext failingHandler ⟨true, true⟩
  exact ⟨⟨fields, h1 (by decide)⟩, h2 (by decide)⟩

/-- C2: the run calls `next` exactly once and returns nil; the calls of
`c.Error` are the one call with the error that `next` returned when it returned
one, and none when it returned nil; the field `error` of the record is what
`next` returned; and, apart from the clock readings taken and the record
written, the run leaves the context exactly as one call of `next`, followed by
one call `c.Error(e)` when it returned an error `e`, leaves it. -/
theorem next_once_and_error_forwarded (c : Context) (next : HandlerFunc)
    (config : LoggerConfig) :
    (logrusMiddlewareHandler c next config).ret = none ∧
    (logrusMiddlewareHandler c next config).nexts = [handedToNext c config] ∧
    (logrusMiddlewareHandler c next config).errors = (next (handedToNext c config)).2.toList ∧
    (∀ e, (next (handedToNext c config)).2 = some e →
      (logrusMiddlewareHandler c next config).errors = [e]) ∧
    ((next (handedToNext c config)).2 = none →
      (logrusMiddlewareHandler c next config).errors = []) ∧
    (∀ record ∈ (logrusMiddlewareHandler c next config).logs,
      record.2.1.lookup "error" = some (.error (next (handedToNext c config)).2)) ∧
    { (logrusMiddlewareHandler c next config).c with
      clock := (handledOnce next (handedToNext c config)).clock
      out := (handledOnce next (handedToNext c config)).out } =
      handledOnce next (handedToNext c config) ∧
    (∀ e, (next (handedToNext c config)).2 = some e →
      handledOnce next (handedToNext c config) = (next (handedToNext c config)).1.Error e) ∧
    ((next (handedToNext c config)).2 = none →
      handledOnce next (handedToNext c config) = (next (handedToNext c config)).1) := by
  refine ⟨rfl, logrusMiddlewareHandler_nexts c next config,
    logrusMiddlewareHandler_errors c next config, ?_, ?_, ?_, ?_, ?_, ?_⟩
  · intro e he
    rw [logrusMiddlewareHandler_errors, he]
    rfl
  · intro he
    rw [logrusMiddlewareHandler_errors, he]
    rfl
  · intro record hr
    rw [logrusMiddlewareHandler_logs, List.mem_singleton] at hr
    subst hr
    exact recordOf_error c next config
  · rw [(logrusMiddlewareHandler_run c next config).2]
  · intro e he
    unfold handledOnce
    rw [he]
  · intro he
    unfold handledOnce
    rw [he]

/-- C2 at concrete handlers: with a handler that writes `ok` and returns the
error `boom`, under an error handler that writes `!`, the run returns nil,
passes `boom` to `c.Error` once, and the client has received `ok!`, each part
once; with a handler that returns nil it does not call `c.Error`. -/
theorem next_once_and_error_forwarded_witness :
    (logrusMiddlewareHandler renderingContext okThenFailHandler ⟨false, false⟩).errors =
      ["boom"] ∧
    (logrusMiddlewareHandler renderingContext okThenFailHandler ⟨false, false⟩).c.rw.sent =
      [111, 107, 33] ∧
    (logrusMiddlewareHandler renderingContext okHandler ⟨false, false⟩).errors = [] ∧
    (logrusMiddlewareHandler renderingContext okHandler ⟨false, false⟩).c.rw.sent =
      [111, 107] :=
  ⟨(next_once_and_error_forwarded renderingContext okThenFailHandler
      ⟨false, false⟩).2.2.2.1 "boom" rfl,
   congrArg (fun c : Context => c.rw.sent)
     (next_once_and_error_forwarded renderingContext okThenFailHandler
       ⟨false, false⟩).2.2.2.2.2.2.1,
   (next_once_and_error_forwarded renderingContext okHandler ⟨false, false⟩).2.2.2.2.1 rfl,
   congrArg (fun c : Context => c.rw.sent)
     (next_once_and_error_forwarded renderingContext okHandler ⟨false, false⟩).2.2.2.2.2.2.1⟩

/-- C4: with `IncludeRequestBodies`, the body that `next` finds in `req.Body` is
a fresh stream which, read to its end, yields exactly the bytes that the
original stream carried, without error, and the field `request_body` holds the
same bytes; without `IncludeRequestBodies`, `next` finds the original
`req.Body` and the run has made no read on it. -/
theorem request_body_round_trip (c : Context) (next : HandlerFunc) (config : LoggerConfig) :
    (logrusMiddlewareHandler c next config).nexts = [handedToNext c config] ∧
    (config.IncludeRequestBodies = true →
      (handedToNext c config).request.Body.map (fun body => (ReadAll body).2) =
        some (carried c.request.Body, none) ∧
      (logrusMiddlewareHandler c next config).reads = c.request.Body.toList ∧
      ∀ record ∈ (logrusMiddlewareHandler c next config).logs,
        record.2.1.lookup "request_body" = some (.text (carried c.request.Body))) ∧
    (config.IncludeRequestBodies = false →
      (handedToNext c config).request.Body = c.request.Body ∧
      (logrusMiddlewareHandler c next config).reads = []) := by
  refine ⟨logrusMiddlewareHandler_nexts c next config, ?_, ?_⟩
  · intro h
    refine ⟨?_, ?_, ?_⟩
    · rw [handedToNext_body, if_pos h, Option.map_some', ReadAll_NopCloserNewBuffer]
    · rw [logrusMiddlewareHandler_reads, if_pos h]
    · intro record hr
      rw [logrusMiddlewareHandler_logs, List.mem_singleton] at hr
      subst hr
      obtain ⟨rq, rs⟩ := config
      simp only at h
      subst h
      exact recordOf_request_body c next rs
  · intro h
    refine ⟨?_, ?_⟩
    · rw [handedToNext_body, h]
      rfl
    · rw [logrusMiddlewareHandler_reads, h]
      rfl

/-- C4 at a concrete request: with both captures on, the handler of
`submitContext` finds a body that reads as the seven bytes sent. -/
theorem request_body_round_trip_witness :
    (handedToNext submitContext ⟨true, true⟩).request.Body.map (fun body => (ReadAll body).2) =
      some (carried submitContext.request.Body, none) ∧
    (handedToNext submitContext ⟨false, true⟩).request.Body = submitContext.request.Body :=
  ⟨((request_body_round_trip submitContext okHandler ⟨true, true⟩).2.1 rfl).1,
   ((request_body_round_trip submitContext okHandler ⟨false, true⟩).2.2 rfl).1⟩

/-- C5: the keys of the record are exactly the fifteen core keys, plus
`request_body` if and only if `IncludeRequestBodies`, plus `response_body` if and
only if `IncludeResponseBodies`; the record that `loggerHook()` emits has
neither of the two. -/
theorem record_key_set (c : Context) (next : HandlerFunc) (config : LoggerConfig) :
    coreKeys.length = 15 ∧ coreKeys.Nodup ∧
    (∃ fields : Fields,
      (logrusMiddlewareHandler c next config).logs = [(InfoLevel, fields, "handled request")] ∧
      ∀ k, k ∈ fields.keys ↔
        (k ∈ coreKeys ∨ (k = "request_body" ∧ config.IncludeRequestBodies = true) ∨
          (k = "response_body" ∧ config.IncludeResponseBodies = true))) ∧
    (∃ fields : Fields,
      (loggerHook next c).logs = [(InfoLevel, fields, "handled request")] ∧
      (∀ k, k ∈ fields.keys ↔ k ∈ coreKeys) ∧
      "request_body" ∉ fields.keys ∧ "response_body" ∉ fields.keys) := by
  refine ⟨rfl, by decide, ⟨_, logrusMiddlewareHandler_logs c next config, ?_⟩,
    ⟨_, logrusMiddlewareHandler_logs c next _, ?_, ?_, ?_⟩⟩
  · intro k
    rw [recordOf_keys]
    obtain ⟨rq, rs⟩ := config
    cases rq <;> cases rs <;> simp [or_assoc]
  · intro k
    rw [recordOf_keys]
    simp
  · rw [recordOf_keys]
    decide
  · rw [recordOf_keys]
    decide

/-- C9: `getRequestID` returns the request's `X-Request-ID` value when it is not
empty, whatever the response carries; the response's value otherwise; and the
empty string when both are empty. -/
theorem getRequestID_prefers_request (req : Request) (res : Response) :
    (req.Header.Get HeaderXRequestID ≠ "" →
      getRequestID req res = req.Header.Get HeaderXRequestID) ∧
    (req.Header.Get HeaderXRequestID = "" →
      getRequestID req res = res.Header.Get HeaderXRequestID) ∧
    (req.Header.Get HeaderXRequestID = "" → res.Header.Get HeaderXRequestID = "" →
      getRequestID req res = "") := by
  unfold getRequestID
  refine ⟨?_, ?_, ?_⟩
  · intro h
    simp [h]
  · intro h
    simp [h]
  · intro h1 h2
    simp [h1, h2]

/-- C9 at concrete headers: the request id `abc` wins over the response id
`xyz`, and without any id the result is empty. -/
theorem getRequestID_prefers_request_witness :
    getRequestID submitRequest freshResponse = "abc" ∧
    getRequestID bareRequest bareResponse = "" :=
  ⟨((getRequestID_prefers_request submitRequest freshResponse).1 (by decide)).trans rfl,
   (getRequestID_prefers_request bareRequest bareResponse).2.2 rfl rfl⟩

/-- C10: `getBytesIn` returns "0" when the `Content-Length` header is absent or
empty, and the header value as it is otherwise; for every config the field
`bytes_in` of the record is `getBytesIn` of the request object that
`c.Request()` returned when the middleware started, read when the record is
built, whatever request the context holds by then and whatever body was
captured; the middleware itself does not touch the headers of that object, so
the field is `getBytesIn` of the incoming request unless the handler or the
error path rewrote the headers of that very object. -/
theorem bytes_in_from_header (c : Context) (next : HandlerFunc) (config : LoggerConfig) :
    (∀ req : Request, req.Header.lookup HeaderContentLength = none → getBytesIn req = "0") ∧
    (∀ req : Request, req.Header.Get HeaderContentLength = "" → getBytesIn req = "0") ∧
    (∀ req : Request, req.Header.Get HeaderContentLength ≠ "" →
      getBytesIn req = req.Header.Get HeaderContentLength) ∧
    ((handedToNext c config).requests c.req).Header = c.request.Header ∧
    (∃ fields : Fields,
      (logrusMiddlewareHandler c next config).logs = [(InfoLevel, fields, "handled request")] ∧
      fields.lookup "bytes_in" =
        some (.str (getBytesIn ((logrusMiddlewareHandler c next config).c.requests c.req))) ∧
      (((logrusMiddlewareHandler c next config).c.requests c.req).Header =
          ((handedToNext c config).requests c.req).Header →
        fields.lookup "bytes_in" = some (.str (getBytesIn c.request)))) := by
  have hin : ((handedToNext c config).requests c.req).Header = c.request.Header := by
    unfold handedToNext
    rw [(responseBlock_request _ config).1]
    exact requestBlock_header c.timeNow.2 config
  have hc : (logrusMiddlewareHandler c next config).c.requests =
      (handledOnce next (handedToNext c config)).requests := by
    rw [(logrusMiddlewareHandler_run c next config).2]
  refine ⟨?_, ?_, ?_, hin, ⟨_, logrusMiddlewareHandler_logs c next config, ?_, ?_⟩⟩
  · intro req h
    simp [getBytesIn, Header.Get, h]
  · intro req h
    simp [getBytesIn, h]
  · intro req h
    simp [getBytesIn, h]
  · rw [recordOf_bytes_in, hc]
  · intro h
    rw [recordOf_bytes_in, ← hc]
    rw [hin] at h
    simp only [getBytesIn, h]

/-- C10 at concrete requests: a declared length of `123` is logged as `123`
although the captured body has seven bytes; it is still logged as `123` when the
handler hands the context a new request that declares `999`; it is logged as
`5` when the handler rewrites the header on the object itself; and a request
without the header gives "0". -/
theorem bytes_in_from_header_witness :
    getBytesIn submitRequest = "123" ∧ getBytesIn bareRequest = "0" ∧
    (logrusMiddlewareHandler submitContext okHandler ⟨true, true⟩).logs.map
      (fun record => (record.2.1.lookup "bytes_in", record.2.1.lookup "request_body")) =
      [(some (.str "123"), some (.text [123, 34, 97, 34, 58, 49, 125]))] ∧
    (logrusMiddlewareHandler submitContext replacingHandler ⟨true, true⟩).logs.map
      (fun record => record.2.1.lookup "bytes_in") = [some (.str "123")] ∧
    getBytesIn (logrusMiddlewareHandler submitContext replacingHandler ⟨true, true⟩).c.request =
      "999" ∧
    (logrusMiddlewareHandler submitContext rewritingHandler ⟨true, true⟩).logs.map
      (fun record => record.2.1.lookup "bytes_in") = [some (.str "5")] :=
  ⟨((bytes_in_from_header submitContext okHandler ⟨true, true⟩).2.2.1 submitRequest
      (by decide)).trans rfl,
   (bytes_in_from_header submitContext okHandler ⟨true, true⟩).1 bareRequest rfl,
   rfl, rfl, rfl, rfl⟩

/-! ## The response body -/

theorem Write_dumpWriter (x : Exchange) (id : Nat) (p : List Byte) (ps : List (List Byte)) :
    ((dumpWriter id).Write x p).1.response = x.response ∧
    ((dumpWriter id).Write x p).1.rw.sent ++
        delivered ((dumpWriter id).Write x p).1.rw.script ps =
      x.rw.sent ++ delivered x.rw.script (p :: ps) ∧
    ((dumpWriter id).Write x p).1.buffers id ++
        captured ((dumpWriter id).Write x p).1.rw.script ps =
      x.buffers id ++ captured x.rw.script (p :: ps) := by
  cases hscript : x.rw.script with
  | nil =>
    simp [Exchange.response, dumpWriter, Writer.Write, ResponseWriter.Write, hscript, delivered, captured]
  | cons entry rest =>
    obtain ⟨n, err⟩ := entry
    cases err with
    | some e =>
      simp [Exchange.response, dumpWriter, Writer.Write, ResponseWriter.Write, hscript, delivered, captured]
    | none =>
      by_cases hn : p.length ≤ n
      · simp [Exchange.response, dumpWriter, Writer.Write, ResponseWriter.Write, hscript, delivered, captured, hn,
          List.take_of_length_le]
      · have hlt : n < p.length := Nat.lt_of_not_le hn
        have hmin : min n p.length ≠ p.length := by omega
        simp [Exchange.response, dumpWriter, Writer.Write, ResponseWriter.Write, hscript, delivered, captured, hn,
          hmin]

theorem writeAll_dumpWriter (id : Nat) (ps : List (List Byte)) :
    ∀ x : Exchange, x.response.Writer = dumpWriter id →
      (x.writeAll ps).rw.sent = x.rw.sent ++ delivered x.rw.script ps ∧
      (x.writeAll ps).buffers id = x.buffers id ++ captured x.rw.script ps := by
  induction ps with
  | nil =>
    intro x _
    simp [Exchange.writeAll, delivered, captured]
  | cons p ps ih =>
    intro x hw
    obtain ⟨h1, h2, h3⟩ := Write_dumpWriter x id p ps
    have hstep : x.writeAll (p :: ps) = ((dumpWriter id).Write x p).1.writeAll ps := by
      simp [Exchange.writeAll, hw]
    rw [hstep]
    obtain ⟨i1, i2⟩ := ih _ (by rw [h1]; exact hw)
    rw [i1, i2, h2, h3]
    exact ⟨rfl, rfl⟩

theorem delivered_captured_of_acceptsWhole (ps : List (List Byte)) :
    ∀ script : List (Nat × Option Err), acceptsWhole script ps = true →
      delivered script ps = ps.flatten ∧ captured script ps = ps.flatten := by
  induction ps with
  | nil =>
    intro script _
    cases script <;> simp [delivered, captured]
  | cons p ps ih =>
    intro script hs
    cases script with
    | nil =>
      obtain ⟨i1, i2⟩ := ih [] (by cases ps <;> rfl)
      simp [delivered, captured, i1, i2]
    | cons entry rest =>
      obtain ⟨n, err⟩ := entry
      simp only [acceptsWhole, Bool.and_eq_true, decide_eq_true_eq,
        Option.isNone_iff_eq_none] at hs
      obtain ⟨⟨he, hn⟩, hrest⟩ := hs
      obtain ⟨i1, i2⟩ := ih rest hrest
      subst he
      simp [delivered, captured, i1, i2, hn, List.take_of_length_le]

theorem handedToNext_capture (c : Context) (rq : Bool) :
    (handedToNext c ⟨rq, true⟩).response.Writer =
      .bodyDump (.multi c.response.Writer (.buffer c.allocated)) c.response.Writer ∧
    (handedToNext c ⟨rq, true⟩).buffers c.allocated = [] ∧
    (handedToNext c ⟨rq, true⟩).rw = c.rw ∧
    (handedToNext c ⟨rq, true⟩).echo = c.echo ∧
    (responseBlock (requestBlock c.timeNow.2 ⟨rq, true⟩).2.1 ⟨rq, true⟩).1 = c.allocated := by
  cases rq <;>
    simp [handedToNext, responseBlock, requestBlock, Context.timeNow, Exchange.timeNow,
      Exchange.newBuffer, Exchange.response]

theorem nextBlock_writingHandler (c : Context) (ps : List (List Byte)) (err : Option Err)
    (eps : Err → List (List Byte))
    (hh : c.echo.HTTPErrorHandler = fun e x => x.writeAll (eps e)) :
    (nextBlock c (writingHandler ps err)).2.1.toExchange =
      c.toExchange.writeAll (ps ++ (err.map eps).getD []) := by
  cases err with
  | none => simp [nextBlock, writingHandler]
  | some e => simp [nextBlock, writingHandler, Context.Error, hh, Exchange.writeAll]

theorem logrusMiddlewareHandler_rw (c : Context) (next : HandlerFunc) (config : LoggerConfig) :
    (logrusMiddlewareHandler c next config).c.rw =
      (nextBlock (handedToNext c config) next).2.1.toExchange.rw := rfl

/-- C3 (as stated, refuted): on a connection that breaks during the first write,
the handler writes the two bytes `ok`; the server's writer delivers the first
byte and returns an error, `io.MultiWriter` stops there, and the record has an
empty `response_body` although one byte went out. -/
theorem response_body_misses_partial_write :
    (logrusMiddlewareHandler brokenPipeContext okHandler ⟨true, true⟩).c.rw.sent = [111] ∧
    (logrusMiddlewareHandler brokenPipeContext okHandler ⟨true, true⟩).logs.map
      (fun record => record.2.1.lookup "response_body") = [some (.text [])] ∧
    (logrusMiddlewareHandler brokenPipeContext okHandler ⟨true, true⟩).logs.map
      (fun record => record.2.1.lookup "response_body") ≠
      [some (.text (logrusMiddlewareHandler brokenPipeContext okHandler ⟨true, true⟩).c.rw.sent)] := by
  refine ⟨rfl, rfl, ?_⟩
  intro h
  have h2 : [some (Value.text [])] = [some (Value.text [(111 : Byte)])] := h
  exact absurd h2 (by decide)

/-- C3 (amended): with `IncludeResponseBodies`, when `res.Writer` is the server's
writer, the field `response_body` holds exactly the chunks, among those that
the handler and the error handler write through `res.Writer`, that the
server's writer took whole and without error, while the client also receives
the part of every other chunk that the server's writer let through; so when
the server's writer accepts each write whole and without error, the bytes
delivered to it during the run and the field `response_body` are the same
bytes, the concatenation of the written chunks. -/
theorem response_body_matches_delivered (c : Context) (ps : List (List Byte)) (err : Option Err)
    (eps : Err → List (List Byte)) (rq : Bool)
    (hw : c.response.Writer = .http)
    (hh : c.echo.HTTPErrorHandler = fun e x => x.writeAll (eps e)) :
    (logrusMiddlewareHandler c (writingHandler ps err) ⟨rq, true⟩).c.rw.sent =
      c.rw.sent ++ delivered c.rw.script (ps ++ (err.map eps).getD []) ∧
    ∃ fields : Fields,
      (logrusMiddlewareHandler c (writingHandler ps err) ⟨rq, true⟩).logs =
        [(InfoLevel, fields, "handled request")] ∧
      fields.lookup "response_body" =
        some (.text (captured c.rw.script (ps ++ (err.map eps).getD []))) ∧
      (acceptsWhole c.rw.script (ps ++ (err.map eps).getD []) = true →
        (logrusMiddlewareHandler c (writingHandler ps err) ⟨rq, true⟩).c.rw.sent =
          c.rw.sent ++ (ps ++ (err.map eps).getD []).flatten ∧
        fields.lookup "response_body" =
          some (.text (ps ++ (err.map eps).getD []).flatten)) := by
  obtain ⟨h1, h2, h3, h4, h5⟩ := handedToNext_capture c rq
  rw [hw] at h1
  have hx := nextBlock_writingHandler (handedToNext c ⟨rq, true⟩) ps err eps (by rw [h4]; exact hh)
  obtain ⟨w1, w2⟩ := writeAll_dumpWriter c.allocated (ps ++ (err.map eps).getD [])
    (handedToNext c ⟨rq, true⟩).toExchange h1
  rw [h3] at w1
  rw [h2, h3, List.nil_append] at w2
  have hsent : (logrusMiddlewareHandler c (writingHandler ps err) ⟨rq, true⟩).c.rw.sent =
      c.rw.sent ++ delivered c.rw.script (ps ++ (err.map eps).getD []) := by
    rw [logrusMiddlewareHandler_rw, hx, w1]
  have hbody : (recordOf c (writingHandler ps err) ⟨rq, true⟩).lookup "response_body" =
      some (.text (captured c.rw.script (ps ++ (err.map eps).getD []))) := by
    unfold recordOf
    rw [fieldsBlock_response_body, h5, hx, w2]
  refine ⟨hsent, _, logrusMiddlewareHandler_logs c _ _, hbody, ?_⟩
  intro hs
  obtain ⟨d1, d2⟩ := delivered_captured_of_acceptsWhole _ _ hs
  rw [hsent, hbody, d1, d2]
  exact ⟨rfl, rfl⟩

/-- The amended C3 at a concrete run: the handler writes `o` and `k` and returns
an error, the error handler writes `!`; the three bytes reach the client and
are the `response_body` of the record. -/
theorem response_body_matches_delivered_witness :
    (logrusMiddlewareHandler renderingContext (writingHandler [[111], [107]] (some "boom"))
      ⟨true, true⟩).c.rw.sent = [111, 107, 33] ∧
    ∃ fields : Fields,
      (logrusMiddlewareHandler renderingContext (writingHandler [[111], [107]] (some "boom"))
        ⟨true, true⟩).logs = [(InfoLevel, fields, "handled request")] ∧
      fields.lookup "response_body" = some (.text [111, 107, 33]) := by
  obtain ⟨_, fields, h2, _, h4⟩ :=
    response_body_matches_delivered renderingContext [[111], [107]] (some "boom")
      (fun _ => [[33]]) true rfl rfl
  exact ⟨(h4 rfl).1, fields, h2, (h4 rfl).2⟩

end Broadcast
